import Mathlib

/-!
Verification development for the message-framing and stream-reassembly layer
(`receptor/messages/framed.py` and `receptor/buffers/base.py`).

Bytes are modelled as natural numbers (each in `0..255` on the wire); byte
strings are `List Nat`.  Machine-width packing (`struct ">ccIIQQ"`) is modelled
big-endian with explicit `% 2 ^ w` truncation where the CPython code masks
(`split_uuid` masks with `MAX_INT64`); theorems carry in-range hypotheses
mirroring exactly the ranges for which `struct.pack` succeeds.

Fallible code is modelled with `Except FramedError`:
  * `insufficientData` stands for `struct.error` (header not fully buffered),
  * `protocolError`    stands for the `ValueError` raised by `Frame.Types(...)`
                       on an unknown kind byte,
  * `encodingError`    stands for a `json.load`/`json.dumps` failure,
  * `attributeError`   stands for `AttributeError` on `None.type`.

JSON encoding/decoding of header values is a black box in the source
(`from .. import serde as json`); it is modelled by an abstract value type `H`
together with an encoder `enc : Option H → List Nat` and a fallible decoder
`dec : List Nat → Option (Option H)` (the inner `Option` is the Python-level
value, which may be `None`, exactly as in the source).
-/

/-- Big-endian value of a byte string: `foldl (acc * 256 + byte)`. -/
def beVal (bs : List Nat) : Nat :=
  bs.foldl (fun acc b => acc * 256 + b) 0

/-- Big-endian encoding of `v` into exactly `w` bytes (low byte last),
truncating to `v % 256 ^ w` as fixed-width packing does. -/
def beBytes : Nat → Nat → List Nat
  | 0, _ => []
  | w + 1, v => beBytes w (v / 256) ++ [v % 256]

/-- `MAX_INT64 = 2 ** 64 - 1`. -/
def MAX_INT64 : Nat := 2 ^ 64 - 1

/-- `split_uuid`: splits a 128 bit int into two 64 bit words for binary encoding. -/
def split_uuid (data : Nat) : Nat × Nat :=
  ((data >>> 64) &&& MAX_INT64, data &&& MAX_INT64)

/-- `join_uuid`: joins two 64 bit words into a 128 bit int from binary encoding. -/
def join_uuid (hi lo : Nat) : Nat :=
  (hi <<< 64) ||| lo

/-- `Frame.Types`: `HEADER = 0`, `PAYLOAD = 1`, `COMMAND = 2`. -/
inductive FrameType where
  | header
  | payload
  | command
deriving DecidableEq, Repr

/-- Numeric value of a frame type (the `IntEnum` value). -/
def FrameType.toNat : FrameType → Nat
  | .header => 0
  | .payload => 1
  | .command => 2

/-- Error classes surfaced by the framing layer (see module docstring above). -/
inductive FramedError where
  | insufficientData
  | protocolError
  | encodingError
  | attributeError
deriving DecidableEq, Repr

/-- A `Frame` represents the minimal metadata about a transmission:
fields `type`, `version`, `length`, `msg_id`, `id` as in the source's
`__slots__`. -/
structure Frame where
  type : FrameType
  version : Nat
  length : Nat
  msg_id : Nat
  id : Nat
deriving DecidableEq, Repr

/-- `Frame.serialize`: `fmt.pack(bytes([type]), bytes([version]), id, length,
*split_uuid(msg_id))` with `fmt = struct.Struct(">ccIIQQ")` — big-endian,
1 + 1 + 4 + 4 + 8 + 8 = 26 bytes. -/
def Frame.serialize (f : Frame) : List Nat :=
  beBytes 1 f.type.toNat ++ beBytes 1 f.version ++ beBytes 4 f.id ++
    beBytes 4 f.length ++ beBytes 8 (split_uuid f.msg_id).1 ++
    beBytes 8 (split_uuid f.msg_id).2

/-- `Frame.deserialize`: unpack `">ccIIQQ"` (fails with `struct.error` unless
given exactly 26 bytes), then `Frame.Types(ord(t))` — which raises a
`ValueError` (protocol error) on a kind byte outside `{0, 1, 2}` — and
`join_uuid(hi, lo)`. -/
def Frame.deserialize (buf : List Nat) : Except FramedError Frame :=
  if buf.length = 26 then
    let t := beVal (buf.take 1)
    let v := beVal ((buf.drop 1).take 1)
    let i := beVal ((buf.drop 2).take 4)
    let len := beVal ((buf.drop 6).take 4)
    let hi := beVal ((buf.drop 10).take 8)
    let lo := beVal ((buf.drop 18).take 8)
    if t = 0 then .ok ⟨.header, v, len, join_uuid hi lo, i⟩
    else if t = 1 then .ok ⟨.payload, v, len, join_uuid hi lo, i⟩
    else if t = 2 then .ok ⟨.command, v, len, join_uuid hi lo, i⟩
    else .error .protocolError
  else .error .insufficientData

/-- `Frame.from_data`: `deserialize(data[:fmt.size]), data[fmt.size:]`. -/
def Frame.from_data (data : List Nat) : Except FramedError (Frame × List Nat) :=
  match Frame.deserialize (data.take 26) with
  | .ok f => .ok (f, data.drop 26)
  | .error e => .error e

/-- `Frame.wrap(data, type_, msg_id)`: builds `Frame(type_, 1, len(data),
msg_id, 1)`, substituting a freshly generated `uuid.uuid4().int` (modelled by
the explicit `fresh` argument) when `msg_id` is falsy (`None` or `0`).
The source uses only `len(data)` of its `data` argument, so the model takes
that length (`data_len`) directly. -/
def Frame.wrap (data_len : Nat) (type_ : FrameType) (msg_id : Option Nat)
    (fresh : Nat) : Frame :=
  let m := match msg_id with
    | none => fresh
    | some m => if m = 0 then fresh else m
  ⟨type_, 1, data_len, m, 1⟩

/-- `FileBackedBuffer`: the disk-spooled buffer.  `fp` models the contents of
the backing file, `length` is the running length counter maintained by
`write`; `min_chunk`/`max_chunk` are the constructor's chunk bounds
(defaults `2 ** 12` / `2 ** 20`). -/
structure FileBackedBuffer where
  fp : List Nat
  length : Nat
  min_chunk : Nat
  max_chunk : Nat
deriving DecidableEq, Repr

/-- `FileBackedBuffer.from_temp()`: a fresh empty temp-file-backed buffer with
the default chunk bounds. -/
def FileBackedBuffer.from_temp : FileBackedBuffer :=
  ⟨[], 0, 2 ^ 12, 2 ^ 20⟩

/-- `write(data)`: appends sequentially and advances `length` by the number of
bytes written (`fp.write` returns `len(data)`). -/
def FileBackedBuffer.write (b : FileBackedBuffer) (data : List Nat) :
    FileBackedBuffer :=
  { b with fp := b.fp ++ data, length := b.length + data.length }

/-- `FileBackedBuffer.from_data(raw_data)`: `from_temp()` then `write`. -/
def FileBackedBuffer.from_data (raw : List Nat) : FileBackedBuffer :=
  FileBackedBuffer.from_temp.write raw

/-- `chunksize` property: `min(max_chunk, max(min_chunk, length // 1024))`. -/
def FileBackedBuffer.chunksize (b : FileBackedBuffer) : Nat :=
  min b.max_chunk (max b.min_chunk (b.length / 1024))

/-- `readall()`: the full contents of the backing file (position restored). -/
def FileBackedBuffer.readall (b : FileBackedBuffer) : List Nat :=
  b.fp

/-- `clamp x lo hi` — the spec's `clamp(length / 1024, min, max)`. -/
def clamp (x lo hi : Nat) : Nat :=
  min hi (max lo x)

/-- The chunks produced by `iter(partial(read, size=chunksize), b"")` over file
contents `data` starting at position 0: repeated reads of up to `c` bytes
until a read returns the empty string (a read of size 0 returns `b""`
immediately). -/
def readChunks (c : Nat) (data : List Nat) : List (List Nat) :=
  if c = 0 then []
  else if data.isEmpty then []
  else data.take c :: readChunks c (data.drop c)
termination_by data.length
decreasing_by
  rename_i hc hd
  simp only [List.isEmpty_iff] at hd
  have : 0 < data.length := List.length_pos.mpr hd
  simp only [List.length_drop]
  omega

/-- `FramedMessage`: container for `msg_id`, a header value and an optional
payload.  The header type is the abstract JSON-value type `Option H`
(`none` is Python `None`). -/
structure FramedMessage (H : Type) where
  msg_id : Nat
  header : Option H
  payload : Option FileBackedBuffer
deriving DecidableEq, Repr

/-- `FramedMessage.__init__`: substitutes a fresh `uuid.uuid4().int` (the
`fresh` argument) only when `msg_id` is `None` — NOT when it is `0`. -/
def FramedMessage.make {H : Type} (msg_id : Option Nat) (fresh : Nat)
    (header : Option H) (payload : Option FileBackedBuffer) : FramedMessage H :=
  ⟨msg_id.getD fresh, header, payload⟩

/-- Python truthiness of the `payload` attribute: `None` is falsy, and a
`FileBackedBuffer` defines `__len__` (no `__bool__`), so it is truthy iff
`len(self) = self.length ≠ 0`. -/
def payloadTruthy (p : Option FileBackedBuffer) : Bool :=
  match p with
  | none => false
  | some b => b.length != 0

/-- `FramedMessage.__iter__`: yields the first frame (`HEADER` if the payload
is truthy else `COMMAND`), the encoded header bytes, and — only when the
payload is truthy — a `PAYLOAD` frame followed by the payload contents read
from position 0 in `chunksize`-byte chunks.  `fresh1`/`fresh2` model the two
potential `uuid.uuid4().int` draws inside `Frame.wrap`. -/
def FramedMessage.iter {H : Type} (enc : Option H → List Nat)
    (m : FramedMessage H) (fresh1 fresh2 : Nat) : List (List Nat) :=
  let header_bytes := enc m.header
  let first := (Frame.wrap header_bytes.length
    (if payloadTruthy m.payload then FrameType.header else FrameType.command)
    (some m.msg_id) fresh1).serialize
  let tail := match m.payload with
    | some p =>
        if p.length = 0 then []
        else (Frame.wrap p.length FrameType.payload (some m.msg_id)
          fresh2).serialize :: readChunks p.chunksize p.fp
    | none => []
  first :: header_bytes :: tail

/-- `FramedMessage.serialize`: `b"".join(self)`. -/
def FramedMessage.serialize {H : Type} (enc : Option H → List Nat)
    (m : FramedMessage H) (fresh1 fresh2 : Nat) : List Nat :=
  (m.iter enc fresh1 fresh2).flatten

/-- `FramedBuffer` state: completion queue `q` (FIFO, `finish` appends at the
tail), held header value `header` (Python `None` initially), the frame-header
accumulator `framebuffer`, the active spooled buffer `bb`, `current_frame`
and the body byte counter `to_read`. -/
structure FramedBuffer (H : Type) where
  q : List (FramedMessage H)
  header : Option H
  framebuffer : List Nat
  bb : FileBackedBuffer
  current_frame : Option Frame
  to_read : Nat
deriving DecidableEq, Repr

/-- `FramedBuffer.__init__`: empty queue, no header, empty accumulator, fresh
temp buffer, no current frame, `to_read = 0`. -/
def FramedBuffer.init {H : Type} : FramedBuffer H :=
  ⟨[], none, [], FileBackedBuffer.from_temp, none, 0⟩

section Engine

variable {H : Type} (dec : List Nat → Option (Option H))

/-- `FramedBuffer.finish`: dispatch on `current_frame.type`.
`HEADER`: decode the spooled bytes as the held header value.
`PAYLOAD`: enqueue `FramedMessage(msg_id, header=self.header, payload=self.bb)`
and clear the held header.  `COMMAND`: decode and enqueue
`FramedMessage(msg_id, header=decoded)` (payload `None`; the held header is
NOT cleared).  Afterwards `to_read = 0` and `bb` is replaced by a fresh temp
buffer.  `current_frame = None` would be an `AttributeError`; the source's
trailing `raise Exception("Unknown Frame Type")` is unreachable because
`deserialize` already validated the kind. -/
def finish (s : FramedBuffer H) : Except FramedError (FramedBuffer H) :=
  match s.current_frame with
  | none => .error .attributeError
  | some f =>
    match f.type with
    | .header =>
        match dec s.bb.fp with
        | none => .error .encodingError
        | some v =>
            .ok { s with header := v, to_read := 0,
                         bb := FileBackedBuffer.from_temp }
    | .payload =>
        .ok { s with q := s.q ++ [⟨f.msg_id, s.header, some s.bb⟩],
                     header := none, to_read := 0,
                     bb := FileBackedBuffer.from_temp }
    | .command =>
        match dec s.bb.fp with
        | none => .error .encodingError
        | some v =>
            .ok { s with q := s.q ++ [⟨f.msg_id, v, none⟩],
                         to_read := 0, bb := FileBackedBuffer.from_temp }

mutual

/-- `FramedBuffer.handle_frame`: append the input to the accumulator and try
`Frame.from_data`; on `struct.error` keep the accumulator and wait for more
bytes; on success clear the accumulator, install the frame, set
`to_read = frame.length` and consume the remainder.  (The source's dead
`if frame.type not in Frame.Types` check cannot fire: `deserialize` already
validated the kind.)  A `ValueError` from an unknown kind byte is not caught
and propagates. -/
def handle_frame (s : FramedBuffer H) (data : List Nat) :
    Except FramedError (FramedBuffer H) :=
  match hfd : Frame.from_data (s.framebuffer ++ data) with
  | .error e =>
      if e = .insufficientData then
        .ok { s with framebuffer := s.framebuffer ++ data }
      else .error e
  | .ok (frame, rest) =>
      consume { s with framebuffer := [], current_frame := some frame,
                       to_read := frame.length } rest
termination_by (s.framebuffer.length + data.length, 0)
decreasing_by
  simp_wf
  simp only [Frame.from_data] at hfd
  split at hfd
  next f heq =>
    injection hfd with h1
    obtain ⟨hfr, hrest⟩ := Prod.mk.injEq .. ▸ h1
    simp only [Frame.deserialize] at heq
    split at heq
    next hlen =>
      apply Prod.Lex.left
      simp only [List.length_take, List.length_append] at hlen
      subst hrest
      simp only [List.length_drop, List.length_append]
      omega
    next => cases heq
  next e heq => cases hfd

/-- `FramedBuffer.consume`: split the input at `to_read`, write the first part
into `bb`, decrement `to_read` by the bytes written; if `to_read` hits 0,
`finish()`; any leftover bytes start the next frame via `handle_frame`. -/
def consume (s : FramedBuffer H) (data : List Nat) :
    Except FramedError (FramedBuffer H) :=
  let taken := data.take s.to_read
  let rest := data.drop s.to_read
  let s1 : FramedBuffer H :=
    { s with bb := s.bb.write taken, to_read := s.to_read - taken.length }
  if s1.to_read = 0 then
    match hfin : finish dec s1 with
    | .error e => .error e
    | .ok s2 => if rest.isEmpty then .ok s2 else handle_frame s2 rest
  else
    if rest.isEmpty then .ok s1 else handle_frame s1 rest
termination_by (s.framebuffer.length + data.length, 1)
decreasing_by
  · simp_wf
    have hfb : s2.framebuffer = s.framebuffer := by
      simp only [finish] at hfin
      split at hfin
      · cases hfin
      next f =>
        split at hfin
        · split at hfin
          · cases hfin
          · injection hfin with h2
            subst h2
            rfl
        · injection hfin with h2
          subst h2
          rfl
        · split at hfin
          · cases hfin
          · injection hfin with h2
            subst h2
            rfl
    rw [hfb]
    have h1 : s.framebuffer.length + (data.length - s.to_read) ≤
        s.framebuffer.length + data.length := by omega
    rcases Nat.eq_or_lt_of_le h1 with heq | hlt
    · rw [heq]
      exact Prod.Lex.right _ (by omega)
    · exact Prod.Lex.left _ _ hlt
  · simp_wf
    have h1 : s.framebuffer.length + (data.length - s.to_read) ≤
        s.framebuffer.length + data.length := by omega
    rcases Nat.eq_or_lt_of_le h1 with heq | hlt
    · rw [heq]
      exact Prod.Lex.right _ (by omega)
    · exact Prod.Lex.left _ _ hlt

end

/-- `FramedBuffer.put`: if no body bytes are owed, treat the input as (more of)
a frame header, else feed it to the body consumer. -/
def put (s : FramedBuffer H) (data : List Nat) :
    Except FramedError (FramedBuffer H) :=
  if s.to_read = 0 then handle_frame dec s data else consume dec s data

/-- Feeding a list of chunks one `put` at a time (stops at the first error). -/
def putAll (s : FramedBuffer H) (chunks : List (List Nat)) :
    Except FramedError (FramedBuffer H) :=
  match chunks with
  | [] => .ok s
  | c :: cs =>
      match put dec s c with
      | .error e => .error e
      | .ok s' => putAll s' cs

/-- `FramedBuffer.get_nowait`: returns the first completed message, if any
(FIFO). -/
def FramedBuffer.get_nowait (s : FramedBuffer H) :
    Option (FramedMessage H × FramedBuffer H) :=
  match s.q with
  | [] => none
  | m :: rest => some (m, { s with q := rest })

end Engine

/-- A concrete header codec instantiating the abstract JSON collaborator in
closed examples: `None` is encoded as `[0]`, the value `n` as `[1, n]`. -/
def encW : Option Nat → List Nat
  | none => [0]
  | some n => [1, n]

/-- Decoder matching `encW`; any other byte string is a decode failure. -/
def decW : List Nat → Option (Option Nat)
  | [0] => some none
  | [1, n] => some (some n)
  | _ => none

/-! ### Byte-codec lemmas -/

theorem beBytes_length (w v : Nat) : (beBytes w v).length = w := by
  induction w generalizing v with
  | zero => rfl
  | succ w ih => simp [beBytes, ih]

theorem beVal_singleton (x : Nat) : beVal [x] = x := by
  simp [beVal]

theorem beVal_append_singleton (xs : List Nat) (x : Nat) :
    beVal (xs ++ [x]) = beVal xs * 256 + x := by
  simp [beVal, List.foldl_append]

theorem beVal_beBytes (w v : Nat) : beVal (beBytes w v) = v % 256 ^ w := by
  induction w generalizing v with
  | zero => simp [beBytes, beVal, Nat.mod_one]
  | succ w ih =>
    rw [beBytes, beVal_append_singleton, ih]
    have h : v % (256 * 256 ^ w) = v % 256 + 256 * (v / 256 % 256 ^ w) :=
      @Nat.mod_mul 256 (256 ^ w) v
    have hp : (256 : Nat) ^ (w + 1) = 256 * 256 ^ w := by ring
    rw [hp, h]
    omega

theorem split_uuid_fst (m : Nat) : (split_uuid m).1 = m / 2 ^ 64 % 2 ^ 64 := by
  simp only [split_uuid, MAX_INT64]
  rw [Nat.and_pow_two_sub_one_eq_mod, Nat.shiftRight_eq_div_pow]

theorem split_uuid_snd (m : Nat) : (split_uuid m).2 = m % 2 ^ 64 := by
  simp only [split_uuid, MAX_INT64]
  rw [Nat.and_pow_two_sub_one_eq_mod]

/-- UUID split/join: `join_uuid(*split_uuid(m))` recovers `m` modulo `2 ^ 128`
(exactly `m` for any 128-bit value). -/
theorem join_split_uuid (m : Nat) :
    join_uuid (split_uuid m).1 (split_uuid m).2 = m % 2 ^ 128 := by
  rw [join_uuid, split_uuid_fst, split_uuid_snd, Nat.shiftLeft_eq]
  have hlt : m % 2 ^ 64 < 2 ^ 64 := Nat.mod_lt _ (by norm_num)
  have hor : (2 : Nat) ^ 64 * (m / 2 ^ 64 % 2 ^ 64) + m % 2 ^ 64 =
      2 ^ 64 * (m / 2 ^ 64 % 2 ^ 64) ||| m % 2 ^ 64 :=
    Nat.mul_add_lt_is_or hlt _
  have hmod : m % (2 ^ 64 * 2 ^ 64) = m % 2 ^ 64 + 2 ^ 64 * (m / 2 ^ 64 % 2 ^ 64) :=
    @Nat.mod_mul (2 ^ 64) (2 ^ 64) m
  have h128 : (2 : Nat) ^ 128 = 2 ^ 64 * 2 ^ 64 := by norm_num
  rw [Nat.mul_comm (m / 2 ^ 64 % 2 ^ 64) (2 ^ 64), ← hor, h128, hmod]
  omega

/-! ### Frame round-trip -/

theorem Frame.serialize_length (f : Frame) : f.serialize.length = 26 := by
  simp [Frame.serialize, beBytes_length]

theorem FrameType.toNat_lt (t : FrameType) : t.toNat < 256 := by
  cases t <;> simp [FrameType.toNat]

/-- Dispatch of the decoded kind byte back to the originating `FrameType`. -/
theorem frameType_dispatch (ty : FrameType) (v len mid i : Nat) :
    (if ty.toNat = 0 then
        (Except.ok ⟨FrameType.header, v, len, mid, i⟩ : Except FramedError Frame)
      else if ty.toNat = 1 then .ok ⟨.payload, v, len, mid, i⟩
      else if ty.toNat = 2 then .ok ⟨.command, v, len, mid, i⟩
      else .error .protocolError) = .ok ⟨ty, v, len, mid, i⟩ := by
  cases ty <;> rfl

/-- Deserializing a serialized frame recovers the frame, with `msg_id` reduced
mod `2 ^ 128` (the only field the packing masks rather than rejects). -/
theorem Frame.deserialize_serialize (f : Frame) (hv : f.version < 256)
    (hid : f.id < 2 ^ 32) (hlen : f.length < 2 ^ 32) :
    Frame.deserialize f.serialize = .ok { f with msg_id := f.msg_id % 2 ^ 128 } := by
  have hA : beBytes 1 f.type.toNat = [f.type.toNat] := by
    simp [beBytes, Nat.mod_eq_of_lt (FrameType.toNat_lt f.type)]
  have hB : beBytes 1 f.version = [f.version] := by
    simp [beBytes, Nat.mod_eq_of_lt hv]
  have h0 : f.serialize = [f.type.toNat] ++ ([f.version] ++ (beBytes 4 f.id ++
      (beBytes 4 f.length ++ (beBytes 8 (split_uuid f.msg_id).1 ++
        beBytes 8 (split_uuid f.msg_id).2)))) := by
    simp [Frame.serialize, hA, hB, List.append_assoc]
  set t := f.type.toNat with ht
  set C := beBytes 4 f.id with hC
  set D := beBytes 4 f.length with hD
  set E := beBytes 8 (split_uuid f.msg_id).1 with hE
  set F := beBytes 8 (split_uuid f.msg_id).2 with hF
  set buf := [t] ++ ([f.version] ++ (C ++ (D ++ (E ++ F)))) with hbuf
  rw [h0]
  have lC : C.length = 4 := beBytes_length ..
  have lD : D.length = 4 := beBytes_length ..
  have lE : E.length = 8 := beBytes_length ..
  have lF : F.length = 8 := beBytes_length ..
  have hlen26 : buf.length = 26 := by
    simp [hbuf, lC, lD, lE, lF]
  have htake1 : buf.take 1 = [t] := List.take_left' (by simp)
  have hdrop1 : buf.drop 1 = [f.version] ++ (C ++ (D ++ (E ++ F))) :=
    List.drop_left' (by simp)
  have hdrop2 : buf.drop 2 = C ++ (D ++ (E ++ F)) := by
    have e : buf = ([t] ++ [f.version]) ++ (C ++ (D ++ (E ++ F))) := by
      simp [hbuf]
    rw [e]
    exact List.drop_left' (by simp)
  have hdrop6 : buf.drop 6 = D ++ (E ++ F) := by
    have e : buf = ([t] ++ ([f.version] ++ C)) ++ (D ++ (E ++ F)) := by
      simp [hbuf]
    rw [e]
    exact List.drop_left' (by simp [lC])
  have hdrop10 : buf.drop 10 = E ++ F := by
    have e : buf = ([t] ++ ([f.version] ++ (C ++ D))) ++ (E ++ F) := by
      simp [hbuf]
    rw [e]
    exact List.drop_left' (by simp [lC, lD])
  have hdrop18 : buf.drop 18 = F := by
    have e : buf = ([t] ++ ([f.version] ++ (C ++ (D ++ E)))) ++ F := by
      simp [hbuf]
    rw [e]
    exact List.drop_left' (by simp [lC, lD, lE])
  rw [Frame.deserialize, if_pos hlen26]
  rw [htake1, hdrop1, hdrop2, hdrop6, hdrop10, hdrop18]
  have e4 : (256 : Nat) ^ 4 = 2 ^ 32 := by norm_num
  have e8 : (256 : Nat) ^ 8 = 2 ^ 64 := by norm_num
  have hiv : beVal C = f.id := by
    rw [hC, beVal_beBytes, e4, Nat.mod_eq_of_lt hid]
  have hlv : beVal D = f.length := by
    rw [hD, beVal_beBytes, e4, Nat.mod_eq_of_lt hlen]
  have hhv : beVal E = (split_uuid f.msg_id).1 := by
    rw [hE, beVal_beBytes, e8, split_uuid_fst,
      Nat.mod_eq_of_lt (Nat.mod_lt _ (by norm_num))]
  have hlov : beVal F = (split_uuid f.msg_id).2 := by
    rw [hF, beVal_beBytes, e8, split_uuid_snd,
      Nat.mod_eq_of_lt (Nat.mod_lt _ (by norm_num))]
  have htf : List.take 1 ([f.version] ++ (C ++ (D ++ (E ++ F)))) = [f.version] :=
    List.take_left' rfl
  have hti : List.take 4 (C ++ (D ++ (E ++ F))) = C := List.take_left' lC
  have htl : List.take 4 (D ++ (E ++ F)) = D := List.take_left' lD
  have hth : List.take 8 (E ++ F) = E := List.take_left' lE
  have htlo : List.take 8 F = F := List.take_of_length_le (by omega)
  simp only [htf, hti, htl, hth, htlo, beVal_singleton, hiv, hlv, hhv, hlov]
  rw [join_split_uuid]
  exact frameType_dispatch f.type f.version f.length (f.msg_id % 2 ^ 128) f.id

/-! ### Basic facts about `Frame.from_data` and the engine -/

theorem Frame.from_data_short (data : List Nat) (h : data.length < 26) :
    Frame.from_data data = .error .insufficientData := by
  rw [Frame.from_data, Frame.deserialize, if_neg]
  simp only [List.length_take]
  omega

theorem Frame.from_data_of_serialize (f : Frame) (rest : List Nat)
    (hv : f.version < 256) (hid : f.id < 2 ^ 32) (hlen : f.length < 2 ^ 32) :
    Frame.from_data (f.serialize ++ rest) =
      .ok ({ f with msg_id := f.msg_id % 2 ^ 128 }, rest) := by
  rw [Frame.from_data, List.take_left' f.serialize_length,
    Frame.deserialize_serialize f hv hid hlen, List.drop_left' f.serialize_length]

theorem handle_frame_short {H : Type} (dec : List Nat → Option (Option H))
    (s : FramedBuffer H) (d : List Nat) (h : (s.framebuffer ++ d).length < 26) :
    handle_frame dec s d = .ok { s with framebuffer := s.framebuffer ++ d } := by
  rw [handle_frame, Frame.from_data_short _ h]
  simp

theorem finish_spec {H : Type} (dec : List Nat → Option (Option H))
    (s s' : FramedBuffer H) (h : finish dec s = .ok s') :
    s'.framebuffer = s.framebuffer ∧ s'.to_read = 0 ∧
      s'.bb = FileBackedBuffer.from_temp := by
  rw [finish] at h
  split at h
  next => cases h
  next f =>
    split at h
    · split at h
      next => cases h
      next v =>
        injection h with h'
        subst h'
        exact ⟨rfl, rfl, rfl⟩
    · injection h with h'
      subst h'
      exact ⟨rfl, rfl, rfl⟩
    · split at h
      next => cases h
      next v =>
        injection h with h'
        subst h'
        exact ⟨rfl, rfl, rfl⟩

theorem put_eq_handle_frame {H : Type} (dec : List Nat → Option (Option H))
    (s : FramedBuffer H) (d : List Nat) (h : s.to_read = 0) :
    put dec s d = handle_frame dec s d := by
  rw [put, if_pos h]

theorem put_eq_consume {H : Type} (dec : List Nat → Option (Option H))
    (s : FramedBuffer H) (d : List Nat) (h : s.to_read ≠ 0) :
    put dec s d = consume dec s d := by
  rw [put, if_neg h]

theorem put_nil {H : Type} (dec : List Nat → Option (Option H))
    (s : FramedBuffer H) (hfb : s.framebuffer = []) (htr : s.to_read = 0) :
    put dec s [] = .ok s := by
  rw [put_eq_handle_frame dec s [] htr]
  have h := handle_frame_short dec s [] (by simp [hfb])
  simpa using h

/-- Ingesting one well-formed frame header followed by exactly its body: the
engine parses the frame, spools the body, finishes, and continues with the
remaining input. -/
theorem put_frame {H : Type} (dec : List Nat → Option (Option H))
    (s : FramedBuffer H) (f : Frame) (body rest : List Nat)
    (hfb : s.framebuffer = []) (htr : s.to_read = 0)
    (hv : f.version < 256) (hid : f.id < 2 ^ 32) (hlen : f.length < 2 ^ 32)
    (hbody : body.length = f.length) :
    put dec s (f.serialize ++ (body ++ rest)) =
      Except.bind
        (finish dec
          { s with framebuffer := [],
                   current_frame := some { f with msg_id := f.msg_id % 2 ^ 128 },
                   bb := s.bb.write body, to_read := 0 })
        (fun s2 => put dec s2 rest) := by
  rw [put_eq_handle_frame dec s _ htr, handle_frame, hfb, List.nil_append,
    Frame.from_data_of_serialize f _ hv hid hlen]
  show consume dec
      { s with framebuffer := [],
               current_frame := some { f with msg_id := f.msg_id % 2 ^ 128 },
               to_read := f.length } (body ++ rest) = _
  rw [consume]
  have htk : List.take f.length (body ++ rest) = body := List.take_left' hbody
  have hdr : List.drop f.length (body ++ rest) = rest := List.drop_left' hbody
  simp only [htk, hdr, hbody, Nat.sub_self, if_pos]
  split
  next e heq =>
    rw [show (List.take f.length (body ++ rest)) = body from htk,
      show f.length - body.length = 0 by rw [hbody, Nat.sub_self]] at heq
    rw [heq]
    rfl
  next s2 heq =>
    rw [show (List.take f.length (body ++ rest)) = body from htk,
      show f.length - body.length = 0 by rw [hbody, Nat.sub_self]] at heq
    rw [heq]
    obtain ⟨hfb2, htr2, hbb2⟩ := finish_spec dec _ s2 heq
    by_cases hre : rest.isEmpty
    · simp only [if_pos hre]
      rw [List.isEmpty_iff] at hre
      subst hre
      show Except.ok s2 = put dec s2 []
      exact (put_nil dec s2 hfb2 htr2).symm
    · simp only [if_neg hre]
      show handle_frame dec s2 rest = put dec s2 rest
      rw [put_eq_handle_frame dec s2 rest htr2]

/-- Ingesting one well-formed frame header followed by exactly its body and
nothing else: the result is the finished state. -/
theorem put_frame_nil {H : Type} (dec : List Nat → Option (Option H))
    (s : FramedBuffer H) (f : Frame) (body : List Nat)
    (hfb : s.framebuffer = []) (htr : s.to_read = 0)
    (hv : f.version < 256) (hid : f.id < 2 ^ 32) (hlen : f.length < 2 ^ 32)
    (hbody : body.length = f.length) :
    put dec s (f.serialize ++ body) =
      finish dec
        { s with framebuffer := [],
                 current_frame := some { f with msg_id := f.msg_id % 2 ^ 128 },
                 bb := s.bb.write body, to_read := 0 } := by
  have h := put_frame dec s f body [] hfb htr hv hid hlen hbody
  rw [List.append_nil] at h
  rw [h]
  cases hfin : finish dec
      { s with framebuffer := [],
               current_frame := some { f with msg_id := f.msg_id % 2 ^ 128 },
               bb := s.bb.write body, to_read := 0 } with
  | error e => rfl
  | ok s2 =>
    obtain ⟨h1, h2, h3⟩ := finish_spec dec _ s2 hfin
    exact put_nil dec s2 h1 h2

/-- Reading a file in positive-size chunks and concatenating yields the full
contents. -/
theorem readChunks_flatten (c : Nat) (hc : c ≠ 0) (data : List Nat) :
    (readChunks c data).flatten = data := by
  rw [readChunks, if_neg hc]
  by_cases hd : data.isEmpty
  · rw [if_pos hd]
    rw [List.isEmpty_iff] at hd
    simp [hd]
  · rw [if_neg hd]
    simp only [List.flatten_cons]
    rw [readChunks_flatten c hc (data.drop c)]
    exact List.take_append_drop c data
termination_by data.length
decreasing_by
  rw [List.isEmpty_iff] at hd
  have : 0 < data.length := List.length_pos.mpr hd
  simp only [List.length_drop]
  omega

/-- The adaptive chunk size is positive whenever the configured bounds are. -/
theorem chunksize_pos (b : FileBackedBuffer) (hmin : 0 < b.min_chunk)
    (hmax : 0 < b.max_chunk) : 0 < b.chunksize := by
  rw [FileBackedBuffer.chunksize]
  have h1 : b.min_chunk ≤ max b.min_chunk (b.length / 1024) := Nat.le_max_left _ _
  omega

/-- Ingesting one serialized COMMAND frame plus its header bytes (from a state
with no partial frame, no owed body bytes and a fresh spool buffer) enqueues
one payload-less message carrying the decoded header, then continues with the
remaining input. -/
theorem put_command_step {H : Type} (dec : List Nat → Option (Option H))
    (s : FramedBuffer H) (hb rest : List Nat) (mid : Nat) (v : Option H)
    (hfb : s.framebuffer = []) (htr : s.to_read = 0) (hbb : s.bb.fp = [])
    (hdec : dec hb = some v) (hlen : hb.length < 2 ^ 32) :
    put dec s ((Frame.mk .command 1 hb.length mid 1).serialize ++ (hb ++ rest)) =
      put dec
        { s with q := s.q ++ [⟨mid % 2 ^ 128, v, none⟩], framebuffer := [],
                 current_frame := some ⟨.command, 1, hb.length, mid % 2 ^ 128, 1⟩,
                 bb := FileBackedBuffer.from_temp, to_read := 0 } rest := by
  rw [put_frame dec s ⟨.command, 1, hb.length, mid, 1⟩ hb rest hfb htr
    (by norm_num) (by norm_num) hlen rfl]
  have hfp : (s.bb.write hb).fp = hb := by
    rw [FileBackedBuffer.write]
    simp [hbb]
  simp only [finish, hfp, hdec, Except.bind]

theorem from_data_length (raw : List Nat) :
    (FileBackedBuffer.from_data raw).length = raw.length := by
  simp [FileBackedBuffer.from_data, FileBackedBuffer.from_temp,
    FileBackedBuffer.write]

theorem from_data_fp (raw : List Nat) :
    (FileBackedBuffer.from_data raw).fp = raw := by
  simp [FileBackedBuffer.from_data, FileBackedBuffer.from_temp,
    FileBackedBuffer.write]

/-- The wire bytes of a dual-part message: HEADER frame, header bytes, PAYLOAD
frame, payload bytes (the chunked reads concatenate back to the payload). -/
theorem serialize_dual {H : Type} (enc : Option H → List Nat) (h : Option H)
    (pdata : List Nat) (m f1 f2 : Nat) (hpne : pdata ≠ []) :
    (FramedMessage.mk m h
        (some (FileBackedBuffer.from_data pdata))).serialize enc f1 f2 =
      (Frame.wrap (enc h).length .header (some m) f1).serialize ++
        (enc h ++
          ((Frame.wrap pdata.length .payload (some m) f2).serialize ++ pdata)) := by
  have hl : (FileBackedBuffer.from_data pdata).length = pdata.length :=
    from_data_length pdata
  have hlne : pdata.length ≠ 0 :=
    Nat.pos_iff_ne_zero.mp (List.length_pos.mpr hpne)
  have hcs : (FileBackedBuffer.from_data pdata).chunksize ≠ 0 :=
    Nat.pos_iff_ne_zero.mp (chunksize_pos _ (by norm_num [FileBackedBuffer.from_data,
      FileBackedBuffer.from_temp, FileBackedBuffer.write])
      (by norm_num [FileBackedBuffer.from_data, FileBackedBuffer.from_temp,
        FileBackedBuffer.write]))
  rw [FramedMessage.serialize, FramedMessage.iter]
  simp only [payloadTruthy, hl, from_data_fp]
  rw [if_neg hlne]
  simp only [bne_iff_ne, ne_eq, hlne, not_false_eq_true, if_true,
    List.flatten_cons, readChunks_flatten _ hcs, List.append_nil, hl]

/-- Master round-trip for a dual-part message (arbitrary `msg_id`, including
the falsy `0`, in which case the PAYLOAD frame carries the second fresh id):
producing and reingesting yields exactly one completed message whose `msg_id`
is the id carried by the PAYLOAD frame, whose header is the decoded header,
and whose payload buffer holds exactly the payload bytes. -/
theorem dual_roundtrip {H : Type} (dec : List Nat → Option (Option H))
    (enc : Option H → List Nat) (h : Option H) (pdata : List Nat)
    (m f1 f2 : Nat) (hdec : dec (enc h) = some h)
    (hlen : (enc h).length < 2 ^ 32) (hplen : pdata.length < 2 ^ 32)
    (hpne : pdata ≠ []) :
    put dec FramedBuffer.init
        ((FramedMessage.mk m h
          (some (FileBackedBuffer.from_data pdata))).serialize enc f1 f2) =
      .ok { q := [⟨(if m = 0 then f2 else m) % 2 ^ 128, h,
                  some (FileBackedBuffer.from_data pdata)⟩],
            header := none, framebuffer := [],
            bb := FileBackedBuffer.from_temp,
            current_frame := some ⟨.payload, 1, pdata.length,
              (if m = 0 then f2 else m) % 2 ^ 128, 1⟩,
            to_read := 0 } := by
  rw [serialize_dual enc h pdata m f1 f2 hpne]
  simp only [Frame.wrap]
  rw [put_frame dec _ ⟨.header, 1, (enc h).length, if m = 0 then f1 else m, 1⟩
    (enc h) _ rfl rfl (by norm_num) (by norm_num) hlen rfl]
  simp only [finish, FramedBuffer.init, FileBackedBuffer.write,
    FileBackedBuffer.from_temp, List.nil_append, hdec, Except.bind]
  rw [put_frame_nil dec _
    ⟨.payload, 1, pdata.length, if m = 0 then f2 else m, 1⟩ pdata rfl rfl
    (by norm_num) (by norm_num) hplen rfl]
  simp only [finish, FileBackedBuffer.write, FileBackedBuffer.from_temp,
    FileBackedBuffer.from_data, List.nil_append, Nat.zero_add]

/-- Ingesting one serialized COMMAND frame plus its header bytes and nothing
else: one payload-less message is enqueued. -/
theorem put_command_nil {H : Type} (dec : List Nat → Option (Option H))
    (s : FramedBuffer H) (hb : List Nat) (mid : Nat) (v : Option H)
    (hfb : s.framebuffer = []) (htr : s.to_read = 0) (hbb : s.bb.fp = [])
    (hdec : dec hb = some v) (hlen : hb.length < 2 ^ 32) :
    put dec s ((Frame.mk .command 1 hb.length mid 1).serialize ++ hb) =
      .ok { s with q := s.q ++ [⟨mid % 2 ^ 128, v, none⟩], framebuffer := [],
                   current_frame := some ⟨.command, 1, hb.length,
                     mid % 2 ^ 128, 1⟩,
                   bb := FileBackedBuffer.from_temp, to_read := 0 } := by
  rw [put_frame_nil dec s ⟨.command, 1, hb.length, mid, 1⟩ hb hfb htr
    (by norm_num) (by norm_num) hlen rfl]
  have hfp : (s.bb.write hb).fp = hb := by
    rw [FileBackedBuffer.write]
    simp [hbb]
  simp only [finish, hfp, hdec]

/-- The wire bytes of a single-part message: one COMMAND frame plus the header
bytes, nothing else. -/
theorem serialize_single {H : Type} (enc : Option H → List Nat) (h : Option H)
    (m f1 f2 : Nat) :
    (FramedMessage.mk m h none).serialize enc f1 f2 =
      (Frame.wrap (enc h).length .command (some m) f1).serialize ++ enc h := by
  rw [FramedMessage.serialize, FramedMessage.iter]
  simp [payloadTruthy]

/-- Master round-trip for a single-part message (arbitrary `msg_id`, including
the falsy `0`): producing and reingesting yields exactly one completed
message with no payload, carrying the decoded header value. -/
theorem command_roundtrip {H : Type} (dec : List Nat → Option (Option H))
    (enc : Option H → List Nat) (h : Option H) (m f1 f2 : Nat)
    (hdec : dec (enc h) = some h) (hlen : (enc h).length < 2 ^ 32) :
    put dec FramedBuffer.init ((FramedMessage.mk m h none).serialize enc f1 f2) =
      .ok { q := [⟨(if m = 0 then f1 else m) % 2 ^ 128, h, none⟩],
            header := none, framebuffer := [],
            bb := FileBackedBuffer.from_temp,
            current_frame := some ⟨.command, 1, (enc h).length,
              (if m = 0 then f1 else m) % 2 ^ 128, 1⟩,
            to_read := 0 } := by
  rw [serialize_single enc h m f1 f2]
  simp only [Frame.wrap]
  rw [put_command_nil dec FramedBuffer.init (enc h) (if m = 0 then f1 else m) h
    rfl rfl rfl hdec hlen]
  simp [FramedBuffer.init]

/-- Master for two single-part messages concatenated into one input chunk:
both are completed, in input order. -/
theorem two_command_roundtrip {H : Type} (dec : List Nat → Option (Option H))
    (enc : Option H → List Nat) (h1 h2 : Option H) (m1 m2 f1 f2 f3 f4 : Nat)
    (hdec1 : dec (enc h1) = some h1) (hlen1 : (enc h1).length < 2 ^ 32)
    (hdec2 : dec (enc h2) = some h2) (hlen2 : (enc h2).length < 2 ^ 32) :
    put dec FramedBuffer.init
        ((FramedMessage.mk m1 h1 none).serialize enc f1 f2 ++
          (FramedMessage.mk m2 h2 none).serialize enc f3 f4) =
      .ok { q := [⟨(if m1 = 0 then f1 else m1) % 2 ^ 128, h1, none⟩,
                  ⟨(if m2 = 0 then f3 else m2) % 2 ^ 128, h2, none⟩],
            header := none, framebuffer := [],
            bb := FileBackedBuffer.from_temp,
            current_frame := some ⟨.command, 1, (enc h2).length,
              (if m2 = 0 then f3 else m2) % 2 ^ 128, 1⟩,
            to_read := 0 } := by
  rw [serialize_single enc h1 m1 f1 f2, serialize_single enc h2 m2 f3 f4]
  simp only [Frame.wrap, List.append_assoc]
  rw [put_command_step dec FramedBuffer.init (enc h1)
    ((Frame.mk .command 1 (enc h2).length (if m2 = 0 then f3 else m2)
      1).serialize ++ enc h2)
    (if m1 = 0 then f1 else m1) h1 rfl rfl rfl hdec1 hlen1]
  rw [put_command_nil dec _ (enc h2) (if m2 = 0 then f3 else m2) h2 rfl rfl rfl
    hdec2 hlen2]
  simp [FramedBuffer.init]

/-- A present but zero-length payload buffer is falsy, so the producer emits a
single-part (COMMAND) message: no PAYLOAD frame, no payload bytes. -/
theorem iter_empty_payload {H : Type} (enc : Option H → List Nat)
    (h : Option H) (p : FileBackedBuffer) (m f1 f2 : Nat) (hp0 : p.length = 0) :
    (FramedMessage.mk m h (some p)).iter enc f1 f2 =
      [(Frame.wrap (enc h).length .command (some m) f1).serialize, enc h] := by
  rw [FramedMessage.iter]
  simp [payloadTruthy, hp0]

/-- Master round-trip for a message with a present but zero-length payload:
it serializes as a single-part message and reassembles with payload absent. -/
theorem empty_payload_roundtrip {H : Type} (dec : List Nat → Option (Option H))
    (enc : Option H → List Nat) (h : Option H) (p : FileBackedBuffer)
    (m f1 f2 : Nat) (hp0 : p.length = 0) (hdec : dec (enc h) = some h)
    (hlen : (enc h).length < 2 ^ 32) :
    put dec FramedBuffer.init
        ((FramedMessage.mk m h (some p)).serialize enc f1 f2) =
      .ok { q := [⟨(if m = 0 then f1 else m) % 2 ^ 128, h, none⟩],
            header := none, framebuffer := [],
            bb := FileBackedBuffer.from_temp,
            current_frame := some ⟨.command, 1, (enc h).length,
              (if m = 0 then f1 else m) % 2 ^ 128, 1⟩,
            to_read := 0 } := by
  rw [FramedMessage.serialize, iter_empty_payload enc h p m f1 f2 hp0]
  simp only [List.flatten_cons, List.flatten_nil, List.append_nil, Frame.wrap]
  rw [put_command_nil dec FramedBuffer.init (enc h) (if m = 0 then f1 else m) h
    rfl rfl rfl hdec hlen]
  simp [FramedBuffer.init]

theorem write_nil (b : FileBackedBuffer) : b.write [] = b := by
  simp [FileBackedBuffer.write]

theorem write_append (b : FileBackedBuffer) (x y : List Nat) :
    b.write (x ++ y) = (b.write x).write y := by
  simp [FileBackedBuffer.write, List.append_assoc]
  omega

/-- Bytes fed to `handle_frame` are indistinguishable from bytes already
sitting in the frame accumulator. -/
theorem handle_frame_append {H : Type} (dec : List Nat → Option (Option H))
    (s : FramedBuffer H) (d b : List Nat) :
    handle_frame dec s (d ++ b) =
      handle_frame dec { s with framebuffer := s.framebuffer ++ d } b := by
  rw [handle_frame, handle_frame,
    show s.framebuffer ++ (d ++ b) = (s.framebuffer ++ d) ++ b from
      (List.append_assoc ..).symm]

theorem from_data_insufficient (d : List Nat)
    (h : Frame.from_data d = .error .insufficientData) : d.length < 26 := by
  by_contra hge
  rw [Frame.from_data] at h
  split at h
  next => cases h
  next e heq =>
    injection h with h'
    subst h'
    rw [Frame.deserialize,
      if_pos (show (List.take 26 d).length = 26 by simp [List.length_take]; omega)] at heq
    simp only [] at heq
    repeat' split at heq
    all_goals simp_all

theorem from_data_ok_facts (d : List Nat) (fr : Frame) (rest : List Nat)
    (h : Frame.from_data d = .ok (fr, rest)) :
    26 ≤ d.length ∧ rest = d.drop 26 := by
  rw [Frame.from_data] at h
  split at h
  next f heq =>
    refine ⟨?_, by injection h with h'; exact (congrArg Prod.snd h').symm⟩
    rw [Frame.deserialize] at heq
    split at heq
    next hl =>
      simp only [List.length_take] at hl
      omega
    next => cases heq
  next => cases h

theorem from_data_append (d b : List Nat) (h26 : 26 ≤ d.length) :
    Frame.from_data (d ++ b) =
      match Frame.from_data d with
      | .ok (fr, rest) => .ok (fr, rest ++ b)
      | .error e => .error e := by
  rw [Frame.from_data, Frame.from_data,
    List.take_append_of_le_length (by omega),
    List.drop_append_of_le_length (by omega)]
  split <;> rfl

/-- Feeding fewer bytes than the body still owes simply spools them and
decrements the counter; the rest of the input behaves as a separate feed. -/
theorem consume_underfill {H : Type} (dec : List Nat → Option (Option H))
    (s : FramedBuffer H) (d b : List Nat) (h : d.length < s.to_read) :
    consume dec s (d ++ b) =
      consume dec
        { s with bb := s.bb.write d, to_read := s.to_read - d.length } b := by
  have htk : (d ++ b).take s.to_read = d ++ b.take (s.to_read - d.length) := by
    rw [List.take_append_eq_append_take, List.take_of_length_le (le_of_lt h)]
  have hdp : (d ++ b).drop s.to_read = b.drop (s.to_read - d.length) := by
    rw [List.drop_append_eq_append_drop, List.drop_eq_nil_of_le (le_of_lt h),
      List.nil_append]
  rw [consume, consume, htk, hdp, write_append]
  simp only [List.length_append, Nat.sub_sub]
  rw [show s.to_read - (d ++ List.take (s.to_read - d.length) b).length =
      s.to_read - (d.length + (List.take (s.to_read - d.length) b).length) by
    simp [List.length_append]]
  rw [Nat.sub_sub]

/-- Chunk-boundary associativity for the two engine entry points, by strong
induction on the number of bytes in flight. -/
theorem put_append_aux {H : Type} (dec : List Nat → Option (Option H)) :
    ∀ (n : Nat),
    (∀ (s : FramedBuffer H) (d b : List Nat),
      s.framebuffer.length + d.length + b.length ≤ n → s.to_read = 0 →
      handle_frame dec s (d ++ b) =
        Except.bind (handle_frame dec s d) (fun s' => put dec s' b)) ∧
    (∀ (s : FramedBuffer H) (d b : List Nat),
      d.length + b.length ≤ n → s.framebuffer = [] →
      consume dec s (d ++ b) =
        Except.bind (consume dec s d) (fun s' => put dec s' b)) := by
  intro n
  induction n using Nat.strong_induction_on with
  | _ n IH =>
  have hHF : ∀ (s : FramedBuffer H) (d b : List Nat),
      s.framebuffer.length + d.length + b.length ≤ n → s.to_read = 0 →
      handle_frame dec s (d ++ b) =
        Except.bind (handle_frame dec s d) (fun s' => put dec s' b) := by
    intro s d b hn htr
    by_cases hsh : (s.framebuffer ++ d).length < 26
    · rw [handle_frame_append dec s d b, handle_frame_short dec s d hsh]
      show handle_frame dec _ b =
        put dec { s with framebuffer := s.framebuffer ++ d } b
      rw [put_eq_handle_frame]
      exact htr
    · push_neg at hsh
      rw [handle_frame, handle_frame,
        show s.framebuffer ++ (d ++ b) = (s.framebuffer ++ d) ++ b from
          (List.append_assoc ..).symm,
        from_data_append _ b hsh]
      cases hfd : Frame.from_data (s.framebuffer ++ d) with
      | error e =>
        have he : e ≠ .insufficientData := by
          intro hcontra
          subst hcontra
          have := from_data_insufficient _ hfd
          omega
        simp [he, Except.bind]
      | ok pr =>
        obtain ⟨fr, rest⟩ := pr
        obtain ⟨h26, hrest⟩ := from_data_ok_facts _ fr rest hfd
        have h26' : 26 ≤ s.framebuffer.length + d.length := by
          simpa [List.length_append] using hsh
        have hr : rest.length = s.framebuffer.length + d.length - 26 := by
          subst hrest
          simp [List.length_drop, List.length_append]
        have hsmall : rest.length + b.length < n := by omega
        have hstep := (IH (rest.length + b.length) hsmall).2
          { s with framebuffer := [], current_frame := some fr,
                   to_read := fr.length } rest b (le_refl _) rfl
        exact hstep
  have hC : ∀ (s : FramedBuffer H) (d b : List Nat),
      d.length + b.length ≤ n → s.framebuffer = [] →
      consume dec s (d ++ b) =
        Except.bind (consume dec s d) (fun s' => put dec s' b) := by
    intro s d b hn hfb
    by_cases hlt : d.length < s.to_read
    · rw [consume_underfill dec s d b hlt]
      have hRd : consume dec s d =
          .ok { s with bb := s.bb.write d,
                       to_read := s.to_read - d.length } := by
        rw [consume, List.take_of_length_le (le_of_lt hlt),
          List.drop_eq_nil_of_le (le_of_lt hlt)]
        rw [if_neg (show ¬(s.to_read - d.length = 0) by omega)]
        simp
      rw [hRd]
      show consume dec _ b =
        put dec { s with bb := s.bb.write d,
                         to_read := s.to_read - d.length } b
      rw [put_eq_consume dec _ b (by show s.to_read - d.length ≠ 0; omega)]
    · push_neg at hlt
      have htk : (d ++ b).take s.to_read = d.take s.to_read :=
        List.take_append_of_le_length hlt
      have hdp : (d ++ b).drop s.to_read = d.drop s.to_read ++ b :=
        List.drop_append_of_le_length hlt
      have hlen_taken : (d.take s.to_read).length = s.to_read :=
        List.length_take_of_le hlt
      rw [consume, consume, htk, hdp, hlen_taken, Nat.sub_self]
      rw [if_pos rfl, if_pos rfl]
      split
      next e heq =>
        rfl
      next s2 heq =>
        obtain ⟨hfb2, htr2, hbb2⟩ := finish_spec dec _ s2 heq
        have hfb2' : s2.framebuffer = [] := by rw [hfb2]; exact hfb
        by_cases hdr : (List.drop s.to_read d).isEmpty
        · rw [List.isEmpty_iff] at hdr
          rw [hdr, List.nil_append]
          by_cases hb : b.isEmpty
          · rw [List.isEmpty_iff] at hb
            subst hb
            exact (put_nil dec s2 hfb2' htr2).symm
          · rw [if_neg hb]
            show handle_frame dec s2 b = put dec s2 b
            rw [put_eq_handle_frame dec s2 b htr2]
        · have hdr' : ¬ ((List.drop s.to_read d ++ b).isEmpty = true) := by
            rw [List.isEmpty_iff] at hdr ⊢
            intro hc
            exact hdr (List.append_eq_nil.mp hc).1
          rw [if_neg hdr', if_neg hdr]
          show handle_frame dec s2 (List.drop s.to_read d ++ b) =
            Except.bind (handle_frame dec s2 (List.drop s.to_read d))
              (fun s' => put dec s' b)
          apply hHF s2 (List.drop s.to_read d) b ?_ htr2
          rw [hfb2']
          simp only [List.length_nil, List.length_drop]
          omega
  exact ⟨hHF, hC⟩

/-- The engine invariant — body bytes are only owed while the frame
accumulator is empty, and the accumulator never holds a full header — is
preserved by both entry points. -/
theorem put_inv_aux {H : Type} (dec : List Nat → Option (Option H)) :
    ∀ (n : Nat),
    (∀ (s : FramedBuffer H) (d : List Nat) (s' : FramedBuffer H),
      s.framebuffer.length + d.length ≤ n → s.to_read = 0 →
      handle_frame dec s d = .ok s' →
      (s'.to_read ≠ 0 → s'.framebuffer = []) ∧ s'.framebuffer.length < 26) ∧
    (∀ (s : FramedBuffer H) (d : List Nat) (s' : FramedBuffer H),
      d.length ≤ n → s.framebuffer = [] →
      consume dec s d = .ok s' →
      (s'.to_read ≠ 0 → s'.framebuffer = []) ∧ s'.framebuffer.length < 26) := by
  intro n
  induction n using Nat.strong_induction_on with
  | _ n IH =>
  have hHF : ∀ (s : FramedBuffer H) (d : List Nat) (s' : FramedBuffer H),
      s.framebuffer.length + d.length ≤ n → s.to_read = 0 →
      handle_frame dec s d = .ok s' →
      (s'.to_read ≠ 0 → s'.framebuffer = []) ∧ s'.framebuffer.length < 26 := by
    intro s d s' hn htr h
    rw [handle_frame] at h
    split at h
    next e heq =>
      split at h
      next hins =>
        subst hins
        injection h with h'
        subst h'
        have hlt := from_data_insufficient _ heq
        refine ⟨fun habs => absurd htr habs, ?_⟩
        simpa using hlt
      next => cases h
    next fr rest heq =>
      obtain ⟨h26, hrest⟩ := from_data_ok_facts _ fr rest heq
      have h26' : 26 ≤ s.framebuffer.length + d.length := by
        simpa [List.length_append] using h26
      have hr : rest.length = s.framebuffer.length + d.length - 26 := by
        subst hrest
        simp [List.length_drop, List.length_append]
      have hlt : rest.length < n := by omega
      exact (IH rest.length hlt).2 _ rest s' (le_refl _) rfl h
  have hC : ∀ (s : FramedBuffer H) (d : List Nat) (s' : FramedBuffer H),
      d.length ≤ n → s.framebuffer = [] →
      consume dec s d = .ok s' →
      (s'.to_read ≠ 0 → s'.framebuffer = []) ∧ s'.framebuffer.length < 26 := by
    intro s d s' hn hfb h
    rw [consume] at h
    split at h
    · split at h
      next e heq => cases h
      next s2 heq =>
        obtain ⟨hfb2, htr2, _⟩ := finish_spec dec _ s2 heq
        have hfb2' : s2.framebuffer = [] := by rw [hfb2]; exact hfb
        split at h
        next =>
          injection h with h'
          subst h'
          exact ⟨fun _ => hfb2', by rw [hfb2']; norm_num⟩
        next =>
          apply hHF s2 _ s' ?_ htr2 h
          rw [hfb2']
          simp only [List.length_nil, List.length_drop, Nat.zero_add]
          omega
    · rename_i hsub
      split at h
      next =>
        injection h with h'
        subst h'
        refine ⟨fun _ => hfb, by rw [hfb]; norm_num⟩
      next hrest =>
        exfalso
        apply hsub
        show s.to_read - (List.take s.to_read d).length = 0
        rw [List.isEmpty_iff, List.drop_eq_nil_iff] at hrest
        push_neg at hrest
        have : (List.take s.to_read d).length = s.to_read :=
          List.length_take_of_le (le_of_lt hrest)
        omega
  exact ⟨hHF, hC⟩

theorem put_inv {H : Type} (dec : List Nat → Option (Option H))
    (s : FramedBuffer H) (d : List Nat) (s' : FramedBuffer H)
    (h1 : s.to_read ≠ 0 → s.framebuffer = []) (h2 : s.framebuffer.length < 26)
    (h : put dec s d = .ok s') :
    (s'.to_read ≠ 0 → s'.framebuffer = []) ∧ s'.framebuffer.length < 26 := by
  rw [put] at h
  by_cases htr : s.to_read = 0
  · rw [if_pos htr] at h
    exact (put_inv_aux dec (s.framebuffer.length + d.length)).1 s d s'
      (le_refl _) htr h
  · rw [if_neg htr] at h
    exact (put_inv_aux dec d.length).2 s d s' (le_refl _) (h1 htr) h

theorem put_nil_inv {H : Type} (dec : List Nat → Option (Option H))
    (s : FramedBuffer H) (h1 : s.to_read ≠ 0 → s.framebuffer = [])
    (h2 : s.framebuffer.length < 26) :
    put dec s [] = .ok s := by
  by_cases htr : s.to_read = 0
  · rw [put_eq_handle_frame dec s [] htr]
    have h := handle_frame_short dec s [] (by simpa using h2)
    simpa using h
  · rw [put_eq_consume dec s [] htr, consume]
    simp [write_nil, htr]

/-- Binary chunk-boundary associativity: under the engine invariant,
`put (a ++ b)` is `put a` then `put b`. -/
theorem put_append {H : Type} (dec : List Nat → Option (Option H))
    (s : FramedBuffer H) (a b : List Nat)
    (hInv : s.to_read ≠ 0 → s.framebuffer = []) :
    put dec s (a ++ b) = Except.bind (put dec s a) (fun s' => put dec s' b) := by
  by_cases htr : s.to_read = 0
  · rw [put_eq_handle_frame dec s _ htr, put_eq_handle_frame dec s a htr]
    exact (put_append_aux dec (s.framebuffer.length + a.length + b.length)).1
      s a b (le_refl _) htr
  · rw [put_eq_consume dec s _ htr, put_eq_consume dec s a htr]
    exact (put_append_aux dec (a.length + b.length)).2 s a b (le_refl _)
      (hInv htr)

theorem putAll_flatten {H : Type} (dec : List Nat → Option (Option H)) :
    ∀ (cs : List (List Nat)) (s : FramedBuffer H),
    (s.to_read ≠ 0 → s.framebuffer = []) → s.framebuffer.length < 26 →
    putAll dec s cs = put dec s cs.flatten := by
  intro cs
  induction cs with
  | nil =>
    intro s h1 h2
    simp only [putAll, List.flatten_nil]
    exact (put_nil_inv dec s h1 h2).symm
  | cons c cs ih =>
    intro s h1 h2
    rw [List.flatten_cons, put_append dec s c cs.flatten h1]
    rw [putAll]
    cases hput : put dec s c with
    | error e => rfl
    | ok s' =>
      obtain ⟨g1, g2⟩ := put_inv dec s c s' h1 h2 hput
      exact ih s' g1 g2

/-! ### Claim theorems -/

/-- C1 (amended): for every FramedMessage with a mapping header, a non-empty
payload buffer, and a truthy (nonzero) `msg_id` within the 128-bit wire range
(header/payload sizes within the 32-bit length field), serializing it and
ingesting the bytes into a fresh FramedBuffer yields exactly one completed
message whose `msg_id` equals the original `msg_id`, whose header equals the
original header, and whose payload, fully read, is byte-identical to the
original payload contents. -/
theorem c1_dual_part_round_trip {H : Type} (dec : List Nat → Option (Option H))
    (enc : Option H → List Nat) (hv : H) (pdata : List Nat) (m f1 f2 : Nat)
    (hm0 : m ≠ 0) (hm : m < 2 ^ 128)
    (hdec : dec (enc (some hv)) = some (some hv))
    (hlen : (enc (some hv)).length < 2 ^ 32)
    (hplen : pdata.length < 2 ^ 32) (hpne : pdata ≠ []) :
    ∃ s', put dec FramedBuffer.init
        ((FramedMessage.mk m (some hv)
          (some (FileBackedBuffer.from_data pdata))).serialize enc f1 f2) =
        .ok s' ∧
      s'.q.map (fun msg => (msg.msg_id, msg.header,
        Option.map FileBackedBuffer.readall msg.payload)) =
        [(m, some hv, some pdata)] := by
  refine ⟨_, dual_roundtrip dec enc (some hv) pdata m f1 f2 hdec hlen hplen
    hpne, ?_⟩
  have hm' : m % 2 ^ 128 = m := Nat.mod_eq_of_lt hm
  simp [hm0, hm', FileBackedBuffer.readall, from_data_fp]
  omega

/-- C1 witness: a concrete dual-part round trip with `msg_id = 5`,
header value `7` and payload `[42, 43]`. -/
theorem c1_dual_part_round_trip_witness :
    ∃ s', put decW FramedBuffer.init
        ((FramedMessage.mk 5 (some 7)
          (some (FileBackedBuffer.from_data [42, 43]))).serialize encW 11 13) =
        .ok s' ∧
      s'.q.map (fun msg => (msg.msg_id, msg.header,
        Option.map FileBackedBuffer.readall msg.payload)) =
        [(5, some 7, some [42, 43])] :=
  c1_dual_part_round_trip decW encW 7 [42, 43] 5 11 13 (by decide)
    (by norm_num) rfl (by decide) (by decide) (by decide)

/-- C1 counterexample: the claim fails as stated for the falsy `msg_id = 0`:
`Frame.wrap` replaces `0` by a fresh random id (here the draw `13` for the
PAYLOAD frame), so the completed message's `msg_id` is `13`, not the original
`0`. -/
theorem c1_msg_id_zero_counterexample :
    (FramedMessage.mk 0 (some 7)
        (some (FileBackedBuffer.from_data [42])) : FramedMessage Nat).msg_id
      = 0 ∧
    (put decW FramedBuffer.init
        ((FramedMessage.mk 0 (some 7)
          (some (FileBackedBuffer.from_data [42]))).serialize encW 11 13)).map
      (fun s => s.q.map FramedMessage.msg_id) = .ok [13] := by
  refine ⟨rfl, ?_⟩
  rw [dual_roundtrip decW encW (some 7) [42] 0 11 13 rfl (by decide)
    (by decide) (by decide)]
  rfl

/-- C2: for every FramedMessage with a mapping header and no payload,
serializing it and ingesting the bytes into a fresh FramedBuffer yields
exactly one completed message whose payload is absent and whose header equals
the original header. -/
theorem c2_single_part_round_trip {H : Type} (dec : List Nat → Option (Option H))
    (enc : Option H → List Nat) (hv : H) (m f1 f2 : Nat)
    (hdec : dec (enc (some hv)) = some (some hv))
    (hlen : (enc (some hv)).length < 2 ^ 32) :
    ∃ s', put dec FramedBuffer.init
        ((FramedMessage.mk m (some hv) none).serialize enc f1 f2) = .ok s' ∧
      s'.q.map (fun msg => (msg.header, msg.payload)) = [(some hv, none)] := by
  refine ⟨_, command_roundtrip dec enc (some hv) m f1 f2 hdec hlen, ?_⟩
  simp

/-- C2 witness: a concrete `{"type": "ping"}`-style single-part round trip. -/
theorem c2_single_part_round_trip_witness :
    ∃ s', put decW FramedBuffer.init
        ((FramedMessage.mk 5 (some 7) none).serialize encW 11 13) = .ok s' ∧
      s'.q.map (fun msg => (msg.header, msg.payload)) = [(some 7, none)] :=
  c2_single_part_round_trip decW encW 7 5 11 13 rfl (by decide)

/-- C3: ingestion is invariant under input chunk boundaries: feeding any
chunking of a byte sequence into a fresh engine chunk by chunk gives the same
result (final state and completed-message queue) as one `put` of the whole
sequence; equivalently, under the engine invariant, `put (a ++ b)` equals
`put a` followed by `put b`. -/
theorem c3_chunk_boundary_invariance :
    (∀ (H : Type) (dec : List Nat → Option (Option H)) (cs : List (List Nat)),
      putAll dec FramedBuffer.init cs = put dec FramedBuffer.init cs.flatten) ∧
    (∀ (H : Type) (dec : List Nat → Option (Option H)) (s : FramedBuffer H)
      (a b : List Nat), (s.to_read ≠ 0 → s.framebuffer = []) →
      put dec s (a ++ b) =
        Except.bind (put dec s a) (fun s' => put dec s' b)) := by
  constructor
  · intro H dec cs
    exact putAll_flatten dec cs FramedBuffer.init (fun habs => absurd rfl habs)
      (show ([] : List Nat).length < 26 by norm_num)
  · intro H dec s a b hInv
    exact put_append dec s a b hInv

/-- C3 witness: a concrete split of a COMMAND message's bytes at position 3,
fed in two `put` calls. -/
theorem c3_chunk_boundary_invariance_witness :
    put decW FramedBuffer.init
        (((FramedMessage.mk 5 (some 7) none).serialize encW 11 13).take 3 ++
          ((FramedMessage.mk 5 (some 7) none).serialize encW 11 13).drop 3) =
      Except.bind (put decW FramedBuffer.init
          (((FramedMessage.mk 5 (some 7) none).serialize encW 11 13).take 3))
        (fun s' => put decW s'
          (((FramedMessage.mk 5 (some 7) none).serialize encW 11 13).drop 3)) :=
  c3_chunk_boundary_invariance.2 Nat decW FramedBuffer.init _ _
    (fun habs => absurd rfl habs)

/-- C4 (amended): for any two independent single-part (COMMAND) messages with
truthy (nonzero) `msg_id`s in 128-bit range, concatenating their serialized
bytes and ingesting the concatenation in one `put` call yields exactly two
completed messages on the queue, dequeued in the same order the messages
appear in the input, each with its own correctly decoded header and
`msg_id`. -/
theorem c4_multiple_messages_per_chunk {H : Type}
    (dec : List Nat → Option (Option H)) (enc : Option H → List Nat)
    (hv1 hv2 : H) (m1 m2 f1 f2 f3 f4 : Nat)
    (hm1 : m1 ≠ 0) (hm1b : m1 < 2 ^ 128) (hm2 : m2 ≠ 0) (hm2b : m2 < 2 ^ 128)
    (hdec1 : dec (enc (some hv1)) = some (some hv1))
    (hlen1 : (enc (some hv1)).length < 2 ^ 32)
    (hdec2 : dec (enc (some hv2)) = some (some hv2))
    (hlen2 : (enc (some hv2)).length < 2 ^ 32) :
    ∃ s', put dec FramedBuffer.init
        ((FramedMessage.mk m1 (some hv1) none).serialize enc f1 f2 ++
          (FramedMessage.mk m2 (some hv2) none).serialize enc f3 f4) =
        .ok s' ∧
      s'.q.map (fun msg => (msg.msg_id, msg.header, msg.payload)) =
        [(m1, some hv1, none), (m2, some hv2, none)] ∧
      (s'.get_nowait).map (fun pr => pr.1.msg_id) = some m1 := by
  refine ⟨_, two_command_roundtrip dec enc (some hv1) (some hv2) m1 m2 f1 f2
    f3 f4 hdec1 hlen1 hdec2 hlen2, ?_, ?_⟩
  · have h1 : m1 % 2 ^ 128 = m1 := Nat.mod_eq_of_lt hm1b
    have h2 : m2 % 2 ^ 128 = m2 := Nat.mod_eq_of_lt hm2b
    simp [hm1, hm2, h1, h2]
    omega
  · have h1 : m1 % 2 ^ 128 = m1 := Nat.mod_eq_of_lt hm1b
    simp [FramedBuffer.get_nowait, hm1, h1]
    omega

/-- C4 witness: two concrete COMMAND messages ingested as one chunk. -/
theorem c4_multiple_messages_per_chunk_witness :
    ∃ s', put decW FramedBuffer.init
        ((FramedMessage.mk 5 (some 7) none).serialize encW 11 12 ++
          (FramedMessage.mk 6 (some 9) none).serialize encW 13 14) = .ok s' ∧
      s'.q.map (fun msg => (msg.msg_id, msg.header, msg.payload)) =
        [(5, some 7, none), (6, some 9, none)] ∧
      (s'.get_nowait).map (fun pr => pr.1.msg_id) = some 5 :=
  c4_multiple_messages_per_chunk decW encW 7 9 5 6 11 12 13 14 (by decide)
    (by norm_num) (by decide) (by norm_num) rfl (by decide) rfl (by decide)

/-- C4 counterexample: with a falsy `msg_id = 0` on the first message, the
first completed message carries the fresh frame-level id `11`, not the
message's own `msg_id` `0`. -/
theorem c4_msg_id_zero_counterexample :
    (FramedMessage.mk 0 (some 7) none : FramedMessage Nat).msg_id = 0 ∧
    (put decW FramedBuffer.init
        ((FramedMessage.mk 0 (some 7) none).serialize encW 11 12 ++
          (FramedMessage.mk 6 (some 9) none).serialize encW 13 14)).map
      (fun s => s.q.map FramedMessage.msg_id) = .ok [11, 6] := by
  refine ⟨rfl, ?_⟩
  rw [two_command_roundtrip decW encW (some 7) (some 9) 0 6 11 12 13 14 rfl
    (by decide) rfl (by decide)]
  rfl

/-- C5: for every Frame whose fields are in valid wire ranges, `serialize`
produces exactly 26 bytes in the big-endian layout and
`deserialize (serialize f)` recovers `f` field for field (the 128-bit
`msg_id` survives the split into two 64-bit words and the rejoin). -/
theorem c5_frame_round_trip (f : Frame) (hv : f.version < 256)
    (hid : f.id < 2 ^ 32) (hlen : f.length < 2 ^ 32) (hm : f.msg_id < 2 ^ 128) :
    f.serialize.length = 26 ∧ Frame.deserialize f.serialize = .ok f := by
  refine ⟨f.serialize_length, ?_⟩
  rw [Frame.deserialize_serialize f hv hid hlen, Nat.mod_eq_of_lt hm]

/-- C5 witness: a concrete frame with a large 128-bit `msg_id`. -/
theorem c5_frame_round_trip_witness :
    (Frame.mk .command 7 300 123456789012345678901234567890 2).serialize.length
      = 26 ∧
    Frame.deserialize
        (Frame.mk .command 7 300 123456789012345678901234567890 2).serialize =
      .ok (Frame.mk .command 7 300 123456789012345678901234567890 2) :=
  c5_frame_round_trip _ (by norm_num) (by norm_num) (by norm_num) (by norm_num)

/-- C6: if the 26 header bytes presented to frame parsing carry a kind byte
outside `{0, 1, 2}`, deserialization fails with the fatal protocol error (the
`ValueError` class), not the recoverable insufficient-data error, and the
engine's `put` propagates it, enqueuing no completed message. -/
theorem c6_unknown_frame_kind {H : Type} (dec : List Nat → Option (Option H))
    (s : FramedBuffer H) (k : Nat) (t : List Nat) (hlen : 25 ≤ t.length)
    (h0 : k ≠ 0) (h1 : k ≠ 1) (h2 : k ≠ 2)
    (hfb : s.framebuffer = []) (htr : s.to_read = 0) :
    Frame.from_data (k :: t) = .error .protocolError ∧
    put dec s (k :: t) = .error .protocolError := by
  have hfd : Frame.from_data (k :: t) = .error .protocolError := by
    rw [Frame.from_data, Frame.deserialize,
      if_pos (show ((k :: t).take 26).length = 26 by
        simp [List.length_take]; omega)]
    have htk : ((k :: t).take 26).take 1 = [k] := by
      rw [List.take_take]
      norm_num
    simp only [htk, beVal_singleton]
    rw [if_neg h0, if_neg h1, if_neg h2]
  refine ⟨hfd, ?_⟩
  rw [put_eq_handle_frame dec s _ htr, handle_frame, hfb, List.nil_append, hfd]
  simp

/-- C6 witness: kind byte `3` with 25 zero bytes behind it. -/
theorem c6_unknown_frame_kind_witness :
    Frame.from_data (3 :: List.replicate 25 0) = .error .protocolError ∧
    put decW FramedBuffer.init (3 :: List.replicate 25 0) =
      .error .protocolError :=
  c6_unknown_frame_kind decW FramedBuffer.init 3 (List.replicate 25 0)
    (by decide) (by decide) (by decide) (by decide) rfl rfl

/-- C7 (amended): `Frame.from_data` applied to fewer than 26 bytes fails with
the recoverable `struct.error` (insufficient data), upon which the engine
keeps the accumulated bytes and waits for more input; applied to 26 or more
bytes whose kind byte is one of `{0, 1, 2}`, it returns the parsed Frame
together with exactly the bytes beyond the first 26. -/
theorem c7_from_data_boundary (b : List Nat) :
    (b.length < 26 → Frame.from_data b = .error .insufficientData) ∧
    (∀ (H : Type) (dec : List Nat → Option (Option H)) (s : FramedBuffer H),
      s.to_read = 0 → s.framebuffer.length + b.length < 26 →
      put dec s b = .ok { s with framebuffer := s.framebuffer ++ b }) ∧
    (26 ≤ b.length →
      (beVal (b.take 1) = 0 ∨ beVal (b.take 1) = 1 ∨ beVal (b.take 1) = 2) →
      ∃ fr, Frame.from_data b = .ok (fr, b.drop 26)) := by
  refine ⟨fun h => Frame.from_data_short b h, fun H dec s h1 h2 => ?_,
    fun h26 hk => ?_⟩
  · rw [put_eq_handle_frame dec s b h1]
    exact handle_frame_short dec s b (by simpa using h2)
  · rw [Frame.from_data, Frame.deserialize,
      if_pos (show (b.take 26).length = 26 by simp [List.length_take]; omega)]
    have htk : (b.take 26).take 1 = b.take 1 := by
      rw [List.take_take]
      norm_num
    rcases hk with hk | hk | hk <;> simp only [htk, hk] <;> simp

/-- C7 witness: the three behaviours at concrete inputs — 10 bytes are
insufficient and retained; 26 bytes with kind byte 0 parse with empty
remainder. -/
theorem c7_from_data_boundary_witness :
    Frame.from_data (List.replicate 10 7) = .error .insufficientData ∧
    put decW FramedBuffer.init (List.replicate 10 7) =
      .ok { (FramedBuffer.init : FramedBuffer Nat) with
            framebuffer := (FramedBuffer.init : FramedBuffer Nat).framebuffer ++
              List.replicate 10 7 } ∧
    ∃ fr, Frame.from_data (0 :: List.replicate 25 0) =
      .ok (fr, (0 :: List.replicate 25 0).drop 26) :=
  ⟨(c7_from_data_boundary (List.replicate 10 7)).1 (by decide),
    (c7_from_data_boundary (List.replicate 10 7)).2.1 Nat decW
      FramedBuffer.init rfl (by decide),
    (c7_from_data_boundary (0 :: List.replicate 25 0)).2.2 (by decide)
      (by decide)⟩

/-- C7 counterexample: 26 bytes whose kind byte is 3 do NOT return a parsed
frame — `from_data` raises the fatal protocol error instead, so the claim's
unconditional ≥ 26 success clause is false. -/
theorem c7_invalid_kind_counterexample :
    (3 :: List.replicate 25 0).length = 26 ∧
    Frame.from_data (3 :: List.replicate 25 0) = .error .protocolError :=
  ⟨by decide, rfl⟩

/-- C8: for every FileBackedBuffer, `chunksize` equals `length / 1024` clamped
to `[min_chunk, max_chunk]`; with the default bounds (4096, 1048576), length 0
gives 4096, any length at least `1048576 * 1024` gives 1048576, and length
2000000 gives 4096 (since `2000000 / 1024 = 1953 < 4096`), not 1953. -/
theorem c8_chunksize_clamp (b : FileBackedBuffer) (l : Nat)
    (hl : 2 ^ 20 * 1024 ≤ l) :
    b.chunksize = clamp (b.length / 1024) b.min_chunk b.max_chunk ∧
    (FileBackedBuffer.mk [] 0 (2 ^ 12) (2 ^ 20)).chunksize = 4096 ∧
    (FileBackedBuffer.mk [] l (2 ^ 12) (2 ^ 20)).chunksize = 1048576 ∧
    (FileBackedBuffer.mk [] 2000000 (2 ^ 12) (2 ^ 20)).chunksize = 4096 ∧
    2000000 / 1024 = 1953 := by
  refine ⟨rfl, by decide, ?_, by decide, by norm_num⟩
  have h1 : 2 ^ 20 ≤ l / 1024 := by omega
  simp only [FileBackedBuffer.chunksize]
  omega

/-- C8 witness: a buffer with ad-hoc bounds for the clamp formula, and the
big-length instance at `l = 2 ^ 31`. -/
theorem c8_chunksize_clamp_witness :
    (FileBackedBuffer.mk [42] 5 7 9).chunksize =
      clamp ((FileBackedBuffer.mk [42] 5 7 9).length / 1024) 7 9 ∧
    (FileBackedBuffer.mk [] 0 (2 ^ 12) (2 ^ 20)).chunksize = 4096 ∧
    (FileBackedBuffer.mk [] (2 ^ 31) (2 ^ 12) (2 ^ 20)).chunksize = 1048576 ∧
    (FileBackedBuffer.mk [] 2000000 (2 ^ 12) (2 ^ 20)).chunksize = 4096 ∧
    2000000 / 1024 = 1953 :=
  c8_chunksize_clamp (FileBackedBuffer.mk [42] 5 7 9) (2 ^ 31) (by norm_num)

/-- C9: a FramedMessage whose payload is a present but zero-length buffer
serializes as a single-part message — one COMMAND frame plus header bytes and
no PAYLOAD frame, because payload presence is decided by truthiness and a
zero-length FileBackedBuffer is falsy — and consequently reassembles into a
message with payload absent, not an empty payload. -/
theorem c9_empty_payload_is_command {H : Type}
    (dec : List Nat → Option (Option H)) (enc : Option H → List Nat) (hv : H)
    (p : FileBackedBuffer) (m f1 f2 : Nat) (hp0 : p.length = 0)
    (hdec : dec (enc (some hv)) = some (some hv))
    (hlen : (enc (some hv)).length < 2 ^ 32) :
    payloadTruthy (some p) = false ∧
    (FramedMessage.mk m (some hv) (some p)).iter enc f1 f2 =
      [(Frame.wrap (enc (some hv)).length .command (some m) f1).serialize,
        enc (some hv)] ∧
    ∃ s', put dec FramedBuffer.init
        ((FramedMessage.mk m (some hv) (some p)).serialize enc f1 f2) =
        .ok s' ∧
      s'.q.map (fun msg => (msg.header, msg.payload)) = [(some hv, none)] := by
  refine ⟨by simp [payloadTruthy, hp0],
    iter_empty_payload enc (some hv) p m f1 f2 hp0,
    _, empty_payload_roundtrip dec enc (some hv) p m f1 f2 hp0 hdec hlen, ?_⟩
  simp

/-- C9 witness: a zero-length buffer (constructed from no bytes) as payload. -/
theorem c9_empty_payload_is_command_witness :
    payloadTruthy (some (FileBackedBuffer.from_data [])) = false ∧
    (FramedMessage.mk 5 (some 7)
        (some (FileBackedBuffer.from_data []))).iter encW 11 13 =
      [(Frame.wrap (encW (some 7)).length .command (some 5) 11).serialize,
        encW (some 7)] ∧
    ∃ s', put decW FramedBuffer.init
        ((FramedMessage.mk 5 (some 7)
          (some (FileBackedBuffer.from_data []))).serialize encW 11 13) =
        .ok s' ∧
      s'.q.map (fun msg => (msg.header, msg.payload)) = [(some 7, none)] :=
  c9_empty_payload_is_command decW encW 7 (FileBackedBuffer.from_data []) 5 11
    13 (by decide) rfl (by decide)

/-- C10: `Frame.wrap` treats `msg_id = 0` the same as `msg_id` absent (the
check is falsiness) and substitutes the freshly generated id, while
`FramedMessage.__init__` only substitutes when `msg_id` is absent; so for a
dual-part message constructed with `msg_id = 0`, the HEADER frame and PAYLOAD
frame each carry an independently generated fresh id (`g1`, `g2`), and —
since `uuid4` ids are nonzero and independent draws differ — neither equals 0
nor the other. -/
theorem c10_falsy_msg_id_fresh_frames {H : Type} (enc : Option H → List Nat)
    (h : Option H) (p : FileBackedBuffer) (g1 g2 : Nat) (hp : p.length ≠ 0)
    (hg1 : g1 ≠ 0) (hg2 : g2 ≠ 0) (hne : g1 ≠ g2) :
    (∀ (n : Nat) (ty : FrameType) (g : Nat),
      Frame.wrap n ty (some 0) g = Frame.wrap n ty none g) ∧
    (∀ (n : Nat) (ty : FrameType) (g : Nat),
      (Frame.wrap n ty (some 0) g).msg_id = g) ∧
    (FramedMessage.make (some 0) g1 h (some p) : FramedMessage H).msg_id = 0 ∧
    (FramedMessage.make none g1 h (some p) : FramedMessage H).msg_id = g1 ∧
    (FramedMessage.mk 0 h (some p)).iter enc g1 g2 =
      [(Frame.mk .header 1 (enc h).length g1 1).serialize, enc h,
        (Frame.mk .payload 1 p.length g2 1).serialize] ++
        readChunks p.chunksize p.fp ∧
    (Frame.mk .header 1 (enc h).length g1 1).msg_id ≠ 0 ∧
    (Frame.mk .payload 1 p.length g2 1).msg_id ≠ 0 ∧
    (Frame.mk .header 1 (enc h).length g1 1).msg_id ≠
      (Frame.mk .payload 1 p.length g2 1).msg_id := by
  refine ⟨fun n ty g => by simp [Frame.wrap], fun n ty g => by simp [Frame.wrap],
    rfl, rfl, ?_, hg1, hg2, hne⟩
  rw [FramedMessage.iter]
  simp [payloadTruthy, hp, Frame.wrap]

/-- C10 witness: concrete fresh draws 4 and 6 with `msg_id = 0`. -/
theorem c10_falsy_msg_id_fresh_frames_witness :
    (∀ (n : Nat) (ty : FrameType) (g : Nat),
      Frame.wrap n ty (some 0) g = Frame.wrap n ty none g) ∧
    (∀ (n : Nat) (ty : FrameType) (g : Nat),
      (Frame.wrap n ty (some 0) g).msg_id = g) ∧
    (FramedMessage.make (some 0) 4 (some 5) (some (FileBackedBuffer.from_data
      [9])) : FramedMessage Nat).msg_id = 0 ∧
    (FramedMessage.make none 4 (some 5) (some (FileBackedBuffer.from_data
      [9])) : FramedMessage Nat).msg_id = 4 ∧
    (FramedMessage.mk 0 (some 5)
        (some (FileBackedBuffer.from_data [9]))).iter encW 4 6 =
      [(Frame.mk .header 1 (encW (some 5)).length 4 1).serialize, encW (some 5),
        (Frame.mk .payload 1 (FileBackedBuffer.from_data [9]).length 6
          1).serialize] ++
        readChunks (FileBackedBuffer.from_data [9]).chunksize
          (FileBackedBuffer.from_data [9]).fp ∧
    (Frame.mk .header 1 (encW (some 5)).length 4 1).msg_id ≠ 0 ∧
    (Frame.mk .payload 1 (FileBackedBuffer.from_data [9]).length 6 1).msg_id
      ≠ 0 ∧
    (Frame.mk .header 1 (encW (some 5)).length 4 1).msg_id ≠
      (Frame.mk .payload 1 (FileBackedBuffer.from_data [9]).length 6 1).msg_id :=
  c10_falsy_msg_id_fresh_frames encW (some 5) (FileBackedBuffer.from_data [9])
    4 6 (by decide) (by decide) (by decide) (by decide)
